import Mathlib

/-!
Verification of the candidate-generation and best-match-selection core of
`assign_stations_to_segments` (src/core/assigner.py).

Embedding conventions:

* Geometries: the source works with shapely geometries in a projected (planar)
  coordinate system.  We model a geometry as an optional finite list of planar
  points with rational coordinates (`none` = null geometry, `some []` = empty
  geometry); a polyline is represented by the finite set of points the
  geometry kernel measures against.  The exact planar distance between two
  geometries is the minimum pairwise point distance, and the bounding envelope
  of a geometry is the coordinate-wise min/max box, exactly as in the kernel.

* Distances: every distance is represented by its *square*, which is rational
  (a Euclidean distance itself is an irrational square root).  For
  nonnegative `d` and radius `r`, `d ≤ r ↔ 0 ≤ r ∧ d² ≤ r²`, and sorting
  ascending by `d` is sorting ascending by `d²`; both facts are used to state
  comparisons.  Fields `distance_m2` / `distance_ft2` hold the squares of the
  source's `distance_m` / `distance_ft` columns.

* The STRtree spatial index of shapely answers envelope-overlap queries; the
  broad phase in `generate_candidates_one_to_many` queries it with the
  envelope of the station buffered by the radius.  We model the query as the
  envelope-intersection filter it implements (`tree.query` returns every
  geometry whose bounding box intersects the query envelope, possibly more).

* pandas tables become Lean lists of structures; the column list of a frame
  is carried separately where a claim depends on it.  `sort_values` with
  several keys is a stable lexicographic sort (pandas uses a stable lexsort
  for multi-key sorting); it is modelled by insertion sort, which is stable.

* Floats become rationals; `NaN`/`None` elevation attributes become `none`.
-/

namespace SegAssign

/-- A planar point in the projected coordinate system. -/
structure Pt where
  x : ℚ
  y : ℚ
deriving DecidableEq, Repr

/-- Squared Euclidean distance between two planar points. -/
def sqDist (p q : Pt) : ℚ := (p.x - q.x) ^ 2 + (p.y - q.y) ^ 2

/-- Squared distance from a point to a nonempty point set (0 on `[]`, unused). -/
def ptDist2 (q : Pt) : List Pt → ℚ
  | [] => 0
  | [r] => sqDist q r
  | r :: s :: rs => min (sqDist q r) (ptDist2 q (s :: rs))

/-- Squared distance between two nonempty point sets (0 when the first is `[]`, unused). -/
def dist2 : List Pt → List Pt → ℚ
  | [], _ => 0
  | [q], l => ptDist2 q l
  | q :: r :: qs, l => min (ptDist2 q l) (dist2 (r :: qs) l)

/-- Least x-coordinate of a nonempty point list (0 on `[]`, unused). -/
def lowX : List Pt → ℚ
  | [] => 0
  | [q] => q.x
  | q :: r :: qs => min q.x (lowX (r :: qs))

/-- Greatest x-coordinate of a nonempty point list (0 on `[]`, unused). -/
def highX : List Pt → ℚ
  | [] => 0
  | [q] => q.x
  | q :: r :: qs => max q.x (highX (r :: qs))

/-- Least y-coordinate of a nonempty point list (0 on `[]`, unused). -/
def lowY : List Pt → ℚ
  | [] => 0
  | [q] => q.y
  | q :: r :: qs => min q.y (lowY (r :: qs))

/-- Greatest y-coordinate of a nonempty point list (0 on `[]`, unused). -/
def highY : List Pt → ℚ
  | [] => 0
  | [q] => q.y
  | q :: r :: qs => max q.y (highY (r :: qs))

/-- An axis-aligned bounding box. -/
structure Box where
  minx : ℚ
  miny : ℚ
  maxx : ℚ
  maxy : ℚ
deriving DecidableEq, Repr

/-- Bounding envelope of a geometry, as the geometry kernel computes it. -/
def bboxOf (l : List Pt) : Box :=
  { minx := lowX l, miny := lowY l, maxx := highX l, maxy := highY l }

/-- Envelope of the geometry buffered by radius `r`: the source builds
`strow.geometry.buffer(radius_m).envelope`, whose envelope is the bounding box
expanded by `r` on every side. -/
def queryEnvOf (l : List Pt) (r : ℚ) : Box :=
  { minx := lowX l - r, miny := lowY l - r, maxx := highX l + r, maxy := highY l + r }

/-- Axis-aligned boxes intersect (the predicate the STRtree broad phase answers). -/
def boxesIntersect (a b : Box) : Prop :=
  a.minx ≤ b.maxx ∧ b.minx ≤ a.maxx ∧ a.miny ≤ b.maxy ∧ b.miny ≤ a.maxy

instance (a b : Box) : Decidable (boxesIntersect a b) :=
  inferInstanceAs (Decidable (_ ∧ _ ∧ _ ∧ _))

/-- The comparison `dist_m <= radius_m` of the source, on squared distances:
for the nonnegative distance `√d2`, `√d2 ≤ r ↔ 0 ≤ r ∧ d2 ≤ r²`. -/
def withinRadius (d2 r : ℚ) : Prop := 0 ≤ r ∧ d2 ≤ r ^ 2

instance (d2 r : ℚ) : Decidable (withinRadius d2 r) :=
  inferInstanceAs (Decidable (_ ∧ _))

/-- A station (point-feature) row: id value, geometry, `station_elev_ft`. -/
structure Station where
  sid : ℕ
  geom : Option (List Pt)
  elev : Option ℚ
deriving DecidableEq, Repr

/-- A segment (line-feature) row: id value, geometry, `seg_min_elev_ft`,
`seg_max_elev_ft`. -/
structure Segment where
  gid : ℕ
  geom : Option (List Pt)
  minElev : Option ℚ
  maxElev : Option ℚ
deriving DecidableEq, Repr

/-- The `Params` dataclass of src/core/assigner.py (the two fields consumed
only by the collaborator helpers `filter_oh_segments` / `restrict_to_hfra`
are carried for completeness). -/
structure Params where
  distance_miles : ℚ := 1 / 2
  elev_tol_ft : ℚ := 500
  station_id : String := "station_id"
  segment_id : String := "segment_id"
  oh_filter_expr : Option String := none
  hfra_only : Bool := false
  top_n : ℕ := 1
  check_elevation : Bool := true
  group_by_col : String := "segment"
deriving DecidableEq, Repr

/-- Conversion constant `FEET_TO_METERS = 0.3048`. -/
def FEET_TO_METERS : ℚ := 3048 / 10000

/-- Conversion constant `MILES_TO_METERS = 1609.344`. -/
def MILES_TO_METERS : ℚ := 1609344 / 1000

/-- The radius `radius_m = params.distance_miles * MILES_TO_METERS`. -/
def radius_m (p : Params) : ℚ := p.distance_miles * MILES_TO_METERS

/-- Geometry is non-null and non-empty: the source keeps the rows with
`geometry.notnull() & ~geometry.is_empty`. -/
def validGeom : Option (List Pt) → Bool
  | none => false
  | some l => !l.isEmpty

/-- The elevation rule of `generate_candidates_one_to_many` (lines 129-134):
pass unconditionally when the check is disabled, pass when any elevation value
is missing, otherwise `z >= zmin - tol and z <= zmax + tol`. -/
def elevPass (check : Bool) (tol : ℚ) (z zmin zmax : Option ℚ) : Bool :=
  if check = false then true
  else
    match z, zmin, zmax with
    | some zv, some mn, some mx => decide (mn - tol ≤ zv ∧ zv ≤ mx + tol)
    | _, _, _ => true

/-- A candidate row, as appended by `generate_candidates_one_to_many`
(distance fields hold squared values, see the header comment). -/
structure CandRow where
  station_id : ℕ
  segment_id : ℕ
  distance_m2 : ℚ
  distance_ft2 : ℚ
  station_elev_ft : Option ℚ
  seg_min_elev_ft : Option ℚ
  seg_max_elev_ft : Option ℚ
  elev_pass : Bool
deriving DecidableEq, Repr

/-- The row dict appended at lines 136-145 of the source. -/
def mkCandRow (p : Params) (s : Station) (g : Segment) (d2 : ℚ) : CandRow :=
  { station_id := s.sid
    segment_id := g.gid
    distance_m2 := d2
    distance_ft2 := d2 / FEET_TO_METERS ^ 2
    station_elev_ft := s.elev
    seg_min_elev_ft := g.minElev
    seg_max_elev_ft := g.maxElev
    elev_pass := elevPass p.check_elevation p.elev_tol_ft s.elev g.minElev g.maxElev }

/-- The inner loop over the broad-phase candidates of one station: the STRtree
query keeps the segments whose bounding box intersects the buffered envelope,
then the precise squared distance is compared against the radius. -/
def candRowsFor (p : Params) (s : Station) : List Segment → List CandRow
  | [] => []
  | g :: gs =>
    if boxesIntersect (queryEnvOf (s.geom.getD []) (radius_m p)) (bboxOf (g.geom.getD [])) then
      if withinRadius (dist2 (s.geom.getD []) (g.geom.getD [])) (radius_m p) then
        mkCandRow p s g (dist2 (s.geom.getD []) (g.geom.getD [])) :: candRowsFor p s gs
      else candRowsFor p s gs
    else candRowsFor p s gs

/-- The outer loop of `generate_candidates_one_to_many` over all stations. -/
def genRows (p : Params) (segs : List Segment) : List Station → List CandRow
  | [] => []
  | s :: ss => candRowsFor p s segs ++ genRows p segs ss

/-- A candidate table: the pandas frame's column list together with its rows. -/
structure CandTable where
  columns : List String
  rows : List CandRow
deriving DecidableEq, Repr

/-- Column list of the frame returned on empty input (lines 83 and 92). -/
def emptyCols (p : Params) : List String :=
  [p.station_id, p.segment_id, "distance_m", "elev_pass"]

/-- Column list of the frame built from the appended row dicts (lines 136-147). -/
def fullCols (p : Params) : List String :=
  [p.station_id, p.segment_id, "distance_m", "distance_ft",
   "station_elev_ft", "seg_min_elev_ft", "seg_max_elev_ft", "elev_pass"]

/-- `generate_candidates_one_to_many` (lines 73-148): guard on empty inputs,
defensively drop null/empty geometries, guard again, then run the loops.  A
frame built from an empty row list has no columns at all. -/
def generate_candidates (p : Params) (stations : List Station) (segments : List Segment) :
    CandTable :=
  if segments = [] ∨ stations = [] then { columns := emptyCols p, rows := [] }
  else if (segments.filter fun g => validGeom g.geom) = [] ∨
      (stations.filter fun s => validGeom s.geom) = [] then
    { columns := emptyCols p, rows := [] }
  else
    { columns :=
        if genRows p (segments.filter fun g => validGeom g.geom)
            (stations.filter fun s => validGeom s.geom) = [] then []
        else fullCols p
      rows := genRows p (segments.filter fun g => validGeom g.geom)
        (stations.filter fun s => validGeom s.geom) }

/-- The `calc_delta` helper of `select_best_match` (lines 163-166): sentinel
`999999.0` when any elevation attribute is missing, otherwise the least
absolute difference to either end of the elevation band. -/
def calc_delta (r : CandRow) : ℚ :=
  match r.station_elev_ft, r.seg_min_elev_ft, r.seg_max_elev_ft with
  | some z, some mn, some mx => min |z - mn| |z - mx|
  | _, _, _ => 999999

/-- A candidate row with the appended `elev_delta_abs_ft` column. -/
structure BestRow where
  row : CandRow
  elev_delta_abs_ft : ℚ
deriving DecidableEq, Repr

/-- The column assignment `cand["elev_delta_abs_ft"] = cand.apply(calc_delta, axis=1)`. -/
def addDelta (rows : List CandRow) : List BestRow :=
  rows.map fun r => { row := r, elev_delta_abs_ft := calc_delta r }

/-- Sort key of `cand.sort_values(by=sort_cols, ascending=asc_order)`
(lines 172-178): lexicographic on `elev_pass` descending (True first, encoded
as rank 0), then `distance_m`, `elev_delta_abs_ft`, `segment_id`,
`station_id`, each ascending. -/
def keyOf (b : BestRow) : Lex (ℕ × Lex (ℚ × Lex (ℚ × Lex (ℕ × ℕ)))) :=
  toLex ((if b.row.elev_pass then 0 else 1),
    toLex (b.row.distance_m2,
      toLex (b.elev_delta_abs_ft,
        toLex (b.row.segment_id, b.row.station_id))))

/-- The row order implemented by the multi-key `sort_values` call. -/
def rowle (a b : BestRow) : Prop := keyOf a ≤ keyOf b

instance : DecidableRel rowle := fun a b =>
  inferInstanceAs (Decidable (keyOf a ≤ keyOf b))

instance : IsTotal BestRow rowle := ⟨fun a b => le_total (keyOf a) (keyOf b)⟩

instance : IsTrans BestRow rowle := ⟨fun _ _ _ h h' => le_trans h h'⟩

/-- The multi-key sort of lines 175-178 (pandas multi-key `sort_values` is a
stable lexicographic sort; insertion sort is stable). -/
def sortCand (l : List BestRow) : List BestRow := List.insertionSort rowle l

/-- Line 181: `group_col = params.segment_id if params.group_by_col == "segment"
else params.station_id`, read off on a row. -/
def groupIdOf (p : Params) (r : CandRow) : ℕ :=
  if p.group_by_col = "segment" then r.segment_id else r.station_id

/-- `cand_sorted.drop_duplicates(subset=[group_col], keep="first")` (line 185):
keep the first row of each group value, in order; `seen` accumulates the group
values already kept. -/
def dropDup {α : Type} (key : α → ℕ) (seen : List ℕ) : List α → List α
  | [] => []
  | a :: l =>
    if key a ∈ seen then dropDup key seen l
    else a :: dropDup key (key a :: seen) l

/-- `cand_sorted.groupby(group_col).head(params.top_n)` (line 187): keep, in
order, the rows whose group has been seen fewer than `n` times so far; `cnt`
accumulates per-group counts. -/
def headPerGroup {α : Type} (key : α → ℕ) (n : ℕ) : List α → (ℕ → ℕ) → List α
  | [], _ => []
  | a :: l, cnt =>
    if cnt (key a) < n then
      a :: headPerGroup key n l fun m => if m = key a then cnt m + 1 else cnt m
    else headPerGroup key n l cnt

/-- `select_best_match` (lines 150-189): empty guard, delta column, multi-key
sort, then top-N per group (`drop_duplicates` when `top_n == 1`, otherwise
`groupby(...).head(top_n)`). -/
def select_best_match (cand : CandTable) (p : Params) : List BestRow :=
  if cand.rows = [] then []
  else if p.top_n = 1 then
    dropDup (fun b => groupIdOf p b.row) [] (sortCand (addDelta cand.rows))
  else
    headPerGroup (fun b => groupIdOf p b.row) p.top_n (sortCand (addDelta cand.rows)) fun _ => 0

/-! Definitions written from the specification's words, for the claims that
compare the code against the spec's description. -/

/-- Spec §4.2 step 5, verbatim: pass unconditionally when the check is off,
pass when any elevation attribute is null, otherwise
`point_elev ≥ line_min − tol` and `point_elev ≤ line_max + tol`. -/
def specElevPass (check : Bool) (tol : ℚ) (z zmin zmax : Option ℚ) : Bool :=
  if check = false then true
  else
    match z, zmin, zmax with
    | some zv, some mn, some mx => decide (mn - tol ≤ zv) && decide (zv ≤ mx + tol)
    | _, _, _ => true

/-- Spec §4.3 step 1, verbatim: a fixed large sentinel when any elevation
attribute is missing, otherwise `min(|point_elev − line_min|, |point_elev −
line_max|)`. -/
def specDelta (r : CandRow) : ℚ :=
  match r.station_elev_ft, r.seg_min_elev_ft, r.seg_max_elev_ft with
  | some z, some mn, some mx => min |z - mn| |z - mx|
  | _, _, _ => 999999

/-- Spec §4.3 step 2, verbatim: elevation-pass flag with True before False,
then distance ascending, then elevation delta ascending, then line id
ascending, then point id ascending (distances compared through their squares,
which is the same order). -/
def specLE (a b : BestRow) : Prop :=
  (a.row.elev_pass = true ∧ b.row.elev_pass = false) ∨
  (a.row.elev_pass = b.row.elev_pass ∧
    (a.row.distance_m2 < b.row.distance_m2 ∨ (a.row.distance_m2 = b.row.distance_m2 ∧
      (a.elev_delta_abs_ft < b.elev_delta_abs_ft ∨ (a.elev_delta_abs_ft = b.elev_delta_abs_ft ∧
        (a.row.segment_id < b.row.segment_id ∨ (a.row.segment_id = b.row.segment_id ∧
          a.row.station_id ≤ b.row.station_id)))))))

/-! ### Basic lemmas about the candidate generator -/

theorem calc_delta_eq_specDelta (r : CandRow) : calc_delta r = specDelta r := rfl

theorem elevPass_eq_specElevPass (check : Bool) (tol : ℚ) (z zmin zmax : Option ℚ) :
    elevPass check tol z zmin zmax = specElevPass check tol z zmin zmax := by
  unfold elevPass specElevPass
  rcases z with _ | zv <;> rcases zmin with _ | mn <;> rcases zmax with _ | mx <;>
    first
    | rfl
    | (by_cases h1 : mn - tol ≤ zv <;> by_cases h2 : zv ≤ mx + tol <;> simp [h1, h2])

theorem mem_candRowsFor {p : Params} {s : Station} {r : CandRow} :
    ∀ {l : List Segment}, r ∈ candRowsFor p s l →
      ∃ g ∈ l, withinRadius (dist2 (s.geom.getD []) (g.geom.getD [])) (radius_m p) ∧
        r = mkCandRow p s g (dist2 (s.geom.getD []) (g.geom.getD []))
  | [], h => absurd h (List.not_mem_nil r)
  | g :: gs, h => by
    unfold candRowsFor at h
    split_ifs at h with hbox hrad
    · rcases List.mem_cons.1 h with hr | hr
      · exact ⟨g, List.mem_cons_self g gs, hrad, hr⟩
      · obtain ⟨g', hg', hw, hr'⟩ := mem_candRowsFor hr
        exact ⟨g', List.mem_cons_of_mem g hg', hw, hr'⟩
    · obtain ⟨g', hg', hw, hr'⟩ := mem_candRowsFor h
      exact ⟨g', List.mem_cons_of_mem g hg', hw, hr'⟩
    · obtain ⟨g', hg', hw, hr'⟩ := mem_candRowsFor h
      exact ⟨g', List.mem_cons_of_mem g hg', hw, hr'⟩

theorem mem_genRows {p : Params} {segs : List Segment} {r : CandRow} :
    ∀ {ss : List Station}, r ∈ genRows p segs ss → ∃ s ∈ ss, r ∈ candRowsFor p s segs
  | [], h => absurd h (List.not_mem_nil r)
  | s :: ss, h => by
    unfold genRows at h
    rcases List.mem_append.1 h with hr | hr
    · exact ⟨s, List.mem_cons_self s ss, hr⟩
    · obtain ⟨s', hs', hr'⟩ := mem_genRows hr
      exact ⟨s', List.mem_cons_of_mem s hs', hr'⟩

theorem mem_generate_candidates {p : Params} {stations : List Station}
    {segments : List Segment} {r : CandRow}
    (h : r ∈ (generate_candidates p stations segments).rows) :
    ∃ s ∈ stations, ∃ g ∈ segments,
      validGeom s.geom = true ∧ validGeom g.geom = true ∧
      withinRadius (dist2 (s.geom.getD []) (g.geom.getD [])) (radius_m p) ∧
      r = mkCandRow p s g (dist2 (s.geom.getD []) (g.geom.getD [])) := by
  unfold generate_candidates at h
  split_ifs at h
  · exact absurd h (List.not_mem_nil r)
  · exact absurd h (List.not_mem_nil r)
  all_goals
    obtain ⟨s, hs, hr⟩ := mem_genRows h
    obtain ⟨g, hg, hw, hr'⟩ := mem_candRowsFor hr
    obtain ⟨hs', hsv⟩ := List.mem_filter.1 hs
    obtain ⟨hg', hgv⟩ := List.mem_filter.1 hg
    exact ⟨s, hs', g, hg', hsv, hgv, hw, hr'⟩

/-- C4: the elevation-pass flag of every emitted candidate row is computed
exactly as the specification describes: true when the check is disabled, true
when the point elevation or either band bound is missing, and otherwise true
exactly when `point_elev ≥ line_min − tol` and `point_elev ≤ line_max + tol`. -/
theorem elev_pass_matches_spec (p : Params) (stations : List Station)
    (segments : List Segment) (r : CandRow)
    (hr : r ∈ (generate_candidates p stations segments).rows) :
    r.elev_pass = specElevPass p.check_elevation p.elev_tol_ft
      r.station_elev_ft r.seg_min_elev_ft r.seg_max_elev_ft := by
  obtain ⟨s, _, g, _, _, _, _, hr'⟩ := mem_generate_candidates hr
  subst hr'
  exact elevPass_eq_specElevPass ..

/-- C8: the elevation-pass predicate is monotone in the tolerance: holding
every other input fixed, a row that passes at tolerance `t` passes at every
tolerance `t' ≥ t`. -/
theorem elev_pass_tol_monotone (check : Bool) (t t' : ℚ) (z zmin zmax : Option ℚ)
    (htt : t ≤ t') (h : elevPass check t z zmin zmax = true) :
    elevPass check t' z zmin zmax = true := by
  unfold elevPass at h ⊢
  rcases check with _ | _
  · simp
  · simp only [Bool.true_eq_false, if_false] at h ⊢
    rcases z with _ | zv <;> rcases zmin with _ | mn <;> rcases zmax with _ | mx <;>
      simp_all only [decide_eq_true_eq]
    exact ⟨by linarith [h.1], by linarith [h.2]⟩

/-- C7: during ranking, the derived elevation delta of each row equals the
fixed large sentinel when any elevation attribute is missing and otherwise
`min(|point_elev − line_min|, |point_elev − line_max|)`, and the delta is
appended without altering any pre-existing candidate field. -/
theorem elev_delta_matches_spec (rows : List CandRow) :
    (addDelta rows).map BestRow.row = rows ∧
    ∀ b ∈ addDelta rows, b.elev_delta_abs_ft = specDelta b.row := by
  constructor
  · induction rows with
    | nil => rfl
    | cons r rs ih => simpa [addDelta] using ih
  · intro b hb
    obtain ⟨r, _, hr⟩ := List.mem_map.1 hb
    subst hr
    exact calc_delta_eq_specDelta r

/-- C9: the two top-N branches coincide at N = 1: keeping the first row per
distinct group value equals taking the 1-row head of every group.  The `seen`
set and the count table are kept in lockstep by the auxiliary invariant. -/
theorem dropDup_eq_headPerGroup_aux {α : Type} (key : α → ℕ) :
    ∀ (l : List α) (seen : List ℕ) (cnt : ℕ → ℕ),
      (∀ m, m ∈ seen ↔ 1 ≤ cnt m) →
      dropDup key seen l = headPerGroup key 1 l cnt
  | [], _, _, _ => rfl
  | a :: l, seen, cnt, hinv => by
    unfold dropDup headPerGroup
    by_cases hmem : key a ∈ seen
    · have h1 : ¬cnt (key a) < 1 := by have := (hinv (key a)).1 hmem; omega
      simp only [hmem, if_true, h1, if_false]
      exact dropDup_eq_headPerGroup_aux key l seen cnt hinv
    · have h1 : cnt (key a) < 1 := by
        by_contra hc
        exact hmem ((hinv (key a)).2 (by omega))
      simp only [hmem, if_false, h1, if_true, List.cons.injEq, true_and]
      refine dropDup_eq_headPerGroup_aux key l (key a :: seen) _ fun m => ?_
      by_cases hm : m = key a
      · subst hm
        simp [List.mem_cons]
      · simp only [List.mem_cons, hm, false_or, if_neg hm]
        exact hinv m

/-- C9, top level: on any row list the `drop_duplicates` branch used when
`top_n == 1` returns exactly the rows of the `groupby(...).head(n)` branch
evaluated at `n = 1`. -/
theorem top1_branches_agree {α : Type} (key : α → ℕ) (l : List α) :
    dropDup key [] l = headPerGroup key 1 l fun _ => 0 :=
  dropDup_eq_headPerGroup_aux key l [] (fun _ => 0) (by simp)

/-- C10: the grouping mode is not validated: the line-id column is used only
when `group_by_col` is exactly the string "segment", and any other string
silently behaves like grouping by the point-id column. -/
theorem group_mode_not_validated (cand : CandTable) (p : Params) (s : String)
    (hs : s ≠ "segment") :
    (∀ r : CandRow, groupIdOf { p with group_by_col := s } r = r.station_id) ∧
    select_best_match cand { p with group_by_col := s } =
      select_best_match cand { p with group_by_col := "station" } := by
  have hst : ("station" : String) ≠ "segment" := by decide
  constructor
  · intro r
    simp [groupIdOf, hs]
  · simp [select_best_match, groupIdOf, hs, hst]

/-! ### The sort order (C2) -/

theorem rowle_iff_specLE (a b : BestRow) : rowle a b ↔ specLE a b := by
  unfold rowle keyOf specLE
  simp only [Prod.Lex.le_iff]
  rcases hpa : a.row.elev_pass with _ | _ <;> rcases hpb : b.row.elev_pass with _ | _ <;>
    simp [hpa, hpb]

/-- C2: the multi-key sort of `select_best_match` permutes the rows and orders
them exactly by the spec's key sequence: elevation-pass flag with True before
False, then distance ascending, then elevation delta ascending, then line id
ascending, then point id ascending; the implemented comparison coincides with
that key sequence, so no other key influences the order. -/
theorem sort_order_matches_spec (l : List BestRow) :
    (sortCand l).Perm l ∧ (sortCand l).Sorted specLE ∧
      ∀ a b : BestRow, rowle a b ↔ specLE a b := by
  refine ⟨List.perm_insertionSort rowle l, ?_, rowle_iff_specLE⟩
  exact (List.sorted_insertionSort rowle l).imp fun hab => (rowle_iff_specLE _ _).1 hab

/-! ### Top-N-per-group counting (C3) -/

theorem countP_dropDup {α : Type} (key : α → ℕ) (g : ℕ) :
    ∀ (l : List α) (seen : List ℕ),
      (dropDup key seen l).countP (fun a => decide (key a = g)) =
        if g ∈ seen then 0 else min 1 (l.countP fun a => decide (key a = g))
  | [], seen => by simp [dropDup]
  | a :: l, seen => by
    unfold dropDup
    by_cases hmem : key a ∈ seen
    · rw [if_pos hmem, countP_dropDup key g l seen]
      by_cases hg : g ∈ seen
      · simp [hg]
      · have hne : key a ≠ g := fun hEq => hg (hEq ▸ hmem)
        simp [hg, List.countP_cons, hne]
    · rw [if_neg hmem]
      by_cases hag : key a = g
      · subst hag
        have hg : key a ∉ seen := hmem
        rw [List.countP_cons, List.countP_cons, countP_dropDup key (key a) l (key a :: seen),
          if_pos (List.mem_cons_self (key a) seen), if_neg hg]
        simp
      · have hga : g ≠ key a := fun h => hag h.symm
        rw [List.countP_cons, List.countP_cons, countP_dropDup key g l (key a :: seen)]
        by_cases hg : g ∈ seen <;> simp [hg, hag, hga, List.mem_cons]

theorem countP_headPerGroup {α : Type} (key : α → ℕ) (g n : ℕ) :
    ∀ (l : List α) (cnt : ℕ → ℕ), cnt g ≤ n →
      (headPerGroup key n l cnt).countP (fun a => decide (key a = g)) =
        min n (cnt g + l.countP fun a => decide (key a = g)) - cnt g
  | [], cnt, hle => by
    simp only [headPerGroup, List.countP_nil, Nat.add_zero]
    omega
  | a :: l, cnt, hle => by
    unfold headPerGroup
    by_cases hag : key a = g
    · subst hag
      by_cases hlt : cnt (key a) < n
      · have hrec := countP_headPerGroup key (key a) n l
          (fun m => if m = key a then cnt m + 1 else cnt m) (by simp; omega)
        simp only [if_pos rfl] at hrec
        simp [hlt, List.countP_cons, hrec]
        omega
      · have hrec := countP_headPerGroup key (key a) n l cnt hle
        simp [hlt, List.countP_cons, hrec]
        omega
    · have hga : g ≠ key a := fun h => hag h.symm
      by_cases hlt : cnt (key a) < n
      · have hrec := countP_headPerGroup key g n l
          (fun m => if m = key a then cnt m + 1 else cnt m) (by simp [hga]; omega)
        simp only [if_neg hga] at hrec
        simp [hlt, List.countP_cons, hrec, hag]
      · have hrec := countP_headPerGroup key g n l cnt hle
        simp [hlt, List.countP_cons, hrec, hag]

theorem countP_select_best_match (cand : CandTable) (p : Params) (g : ℕ) :
    (select_best_match cand p).countP (fun b => decide (groupIdOf p b.row = g)) =
      min p.top_n (cand.rows.countP fun c => decide (groupIdOf p c = g)) := by
  unfold select_best_match
  by_cases hempty : cand.rows = []
  · simp [hempty]
  · rw [if_neg hempty]
    have hsort : (sortCand (addDelta cand.rows)).countP
          (fun b => decide (groupIdOf p b.row = g)) =
        cand.rows.countP fun c => decide (groupIdOf p c = g) := by
      unfold sortCand
      rw [(List.perm_insertionSort rowle _).countP_eq, addDelta, List.countP_map]
      rfl
    by_cases h1 : p.top_n = 1
    · rw [if_pos h1, countP_dropDup, if_neg (List.not_mem_nil g), hsort, h1]
    · rw [if_neg h1, countP_headPerGroup _ _ _ _ _ (Nat.zero_le _), hsort]
      simp

/-- C3: with `top_n = N ≥ 1` the best-match output contains at most `N` rows
per distinct group value, and a group with fewer than `N` candidate rows
retains all of them. -/
theorem top_n_per_group_bound (cand : CandTable) (p : Params) (g : ℕ)
    (_hN : 1 ≤ p.top_n) :
    (select_best_match cand p).countP (fun b => decide (groupIdOf p b.row = g)) ≤ p.top_n ∧
    ((cand.rows.countP fun c => decide (groupIdOf p c = g)) < p.top_n →
      (select_best_match cand p).countP (fun b => decide (groupIdOf p b.row = g)) =
        cand.rows.countP fun c => decide (groupIdOf p c = g)) := by
  rw [countP_select_best_match cand p g]
  exact ⟨Nat.min_le_left _ _, fun h => by omega⟩

/-! ### Determinism of selection (C5) -/

theorem keyOf_eq_ids {a b : BestRow} (h : keyOf a = keyOf b) :
    a.row.station_id = b.row.station_id ∧ a.row.segment_id = b.row.segment_id := by
  unfold keyOf at h
  simp only [toLex_inj, Prod.mk.injEq] at h
  exact ⟨h.2.2.2.2, h.2.2.2.1⟩

/-- Two sorted permutations of the same rows are equal when the sort key is
injective on those rows (ties on every key force equal rows). -/
theorem sorted_unique : ∀ {l₁ l₂ : List BestRow}, l₁.Perm l₂ →
    l₁.Sorted rowle → l₂.Sorted rowle →
    (∀ a ∈ l₁, ∀ b ∈ l₁, keyOf a = keyOf b → a = b) → l₁ = l₂
  | [], _, hp, _, _, _ => hp.symm.eq_nil.symm
  | a :: t₁, l₂, hp, hs₁, hs₂, hinj => by
    cases l₂ with
    | nil => exact absurd hp.eq_nil (List.cons_ne_nil a t₁)
    | cons b t₂ =>
      have hab : a = b := by
        have ha₂ : a ∈ b :: t₂ := hp.subset (List.mem_cons_self a t₁)
        have hb₁ : b ∈ a :: t₁ := hp.symm.subset (List.mem_cons_self b t₂)
        rcases List.mem_cons.1 ha₂ with h | ha₂'
        · exact h
        · rcases List.mem_cons.1 hb₁ with h | hb₁'
          · exact h.symm
          · have r₁ : rowle a b := List.rel_of_sorted_cons hs₁ b hb₁'
            have r₂ : rowle b a := List.rel_of_sorted_cons hs₂ a ha₂'
            exact hinj a (List.mem_cons_self a t₁) b (List.mem_cons_of_mem a hb₁')
              (le_antisymm r₁ r₂)
      subst hab
      have htl := sorted_unique hp.cons_inv hs₁.of_cons hs₂.of_cons
        fun x hx y hy hxy =>
          hinj x (List.mem_cons_of_mem a hx) y (List.mem_cons_of_mem a hy) hxy
      rw [htl]

/-- C5: `select_best_match` is independent of candidate row order: on two
candidate tables whose rows are permutations of each other — a candidate
table carries at most one row per (point, line) pair, so the id pair
determines the row — the outputs are identical row for row. -/
theorem select_best_match_perm_invariant (cand cand' : CandTable) (p : Params)
    (hperm : cand.rows.Perm cand'.rows)
    (hids : ∀ a ∈ cand.rows, ∀ b ∈ cand.rows,
      a.station_id = b.station_id → a.segment_id = b.segment_id → a = b) :
    select_best_match cand p = select_best_match cand' p := by
  have hsorteq : sortCand (addDelta cand.rows) = sortCand (addDelta cand'.rows) := by
    apply sorted_unique
    · exact (List.perm_insertionSort rowle _).trans
        ((hperm.map _).trans (List.perm_insertionSort rowle _).symm)
    · exact List.sorted_insertionSort rowle _
    · exact List.sorted_insertionSort rowle _
    · intro x hx y hy hxy
      rw [sortCand, List.mem_insertionSort] at hx hy
      obtain ⟨rx, hrx, hx'⟩ := List.mem_map.1 hx
      obtain ⟨ry, hry, hy'⟩ := List.mem_map.1 hy
      subst hx'
      subst hy'
      obtain ⟨h1, h2⟩ := keyOf_eq_ids hxy
      have hr : rx = ry := hids rx hrx ry hry h1 h2
      subst hr
      rfl
  unfold select_best_match
  have hlen := hperm.length_eq
  by_cases h0 : cand.rows = []
  · have h0' : cand'.rows = [] := List.length_eq_zero.1 (by rw [← hlen, h0]; rfl)
    rw [if_pos h0, if_pos h0']
  · have h0' : cand'.rows ≠ [] :=
      fun hh => h0 (List.length_eq_zero.1 (by rw [hlen, hh]; rfl))
    rw [if_neg h0, if_neg h0', hsorteq]

/-! ### Geometry of the broad phase (C1) -/

theorem validGeom_getD_ne_nil {o : Option (List Pt)} (h : validGeom o = true) :
    o.getD [] ≠ [] := by
  cases o with
  | none => simp [validGeom] at h
  | some l =>
    cases l with
    | nil => simp [validGeom] at h
    | cons x xs => simp

theorem lowX_le {q : Pt} : ∀ {l : List Pt}, q ∈ l → lowX l ≤ q.x
  | [], h => absurd h (List.not_mem_nil q)
  | [r], h => by
    rcases List.mem_singleton.1 h with rfl
    simp [lowX]
  | r :: t :: rs, h => by
    rw [lowX]
    rcases List.mem_cons.1 h with rfl | h'
    · exact min_le_left _ _
    · exact le_trans (min_le_right _ _) (lowX_le h')

theorem le_highX {q : Pt} : ∀ {l : List Pt}, q ∈ l → q.x ≤ highX l
  | [], h => absurd h (List.not_mem_nil q)
  | [r], h => by
    rcases List.mem_singleton.1 h with rfl
    simp [highX]
  | r :: t :: rs, h => by
    rw [highX]
    rcases List.mem_cons.1 h with rfl | h'
    · exact le_max_left _ _
    · exact le_trans (le_highX h') (le_max_right _ _)

theorem lowY_le {q : Pt} : ∀ {l : List Pt}, q ∈ l → lowY l ≤ q.y
  | [], h => absurd h (List.not_mem_nil q)
  | [r], h => by
    rcases List.mem_singleton.1 h with rfl
    simp [lowY]
  | r :: t :: rs, h => by
    rw [lowY]
    rcases List.mem_cons.1 h with rfl | h'
    · exact min_le_left _ _
    · exact le_trans (min_le_right _ _) (lowY_le h')

theorem le_highY {q : Pt} : ∀ {l : List Pt}, q ∈ l → q.y ≤ highY l
  | [], h => absurd h (List.not_mem_nil q)
  | [r], h => by
    rcases List.mem_singleton.1 h with rfl
    simp [highY]
  | r :: t :: rs, h => by
    rw [highY]
    rcases List.mem_cons.1 h with rfl | h'
    · exact le_max_left _ _
    · exact le_trans (le_highY h') (le_max_right _ _)

theorem ptDist2_achieved (q : Pt) :
    ∀ {l : List Pt}, l ≠ [] → ∃ t ∈ l, ptDist2 q l = sqDist q t
  | [], h => absurd rfl h
  | [r], _ => ⟨r, List.mem_singleton.2 rfl, by simp [ptDist2]⟩
  | r :: t :: rs, _ => by
    rw [ptDist2]
    rcases le_total (sqDist q r) (ptDist2 q (t :: rs)) with hle | hle
    · exact ⟨r, List.mem_cons_self r (t :: rs), min_eq_left hle⟩
    · obtain ⟨u, hu, hEq⟩ := ptDist2_achieved q (List.cons_ne_nil t rs)
      exact ⟨u, List.mem_cons_of_mem r hu, by rw [min_eq_right hle, hEq]⟩

theorem dist2_achieved :
    ∀ {P : List Pt}, P ≠ [] → ∀ {L : List Pt}, L ≠ [] →
      ∃ q ∈ P, ∃ t ∈ L, dist2 P L = sqDist q t
  | [], hP, _, _ => absurd rfl hP
  | [q], _, L, hL => by
    obtain ⟨t, ht, hEq⟩ := ptDist2_achieved q hL
    exact ⟨q, List.mem_singleton.2 rfl, t, ht, by rw [dist2]; exact hEq⟩
  | q :: r :: qs, _, L, hL => by
    rw [dist2]
    rcases le_total (ptDist2 q L) (dist2 (r :: qs) L) with hle | hle
    · obtain ⟨t, ht, hEq⟩ := ptDist2_achieved q hL
      exact ⟨q, List.mem_cons_self q (r :: qs), t, ht, by rw [min_eq_left hle, hEq]⟩
    · obtain ⟨q', hq', t, ht, hEq⟩ := dist2_achieved (List.cons_ne_nil r qs) hL
      exact ⟨q', List.mem_cons_of_mem q hq', t, ht, by rw [min_eq_right hle, hEq]⟩

/-- Soundness of the broad phase: a pair within the radius is never missed by
the envelope query — the buffered envelope of the station intersects the
bounding box of the segment. -/
theorem withinRadius_boxesIntersect {P L : List Pt} (hP : P ≠ []) (hL : L ≠ [])
    {r : ℚ} (h : withinRadius (dist2 P L) r) :
    boxesIntersect (queryEnvOf P r) (bboxOf L) := by
  obtain ⟨hr, hd⟩ := h
  obtain ⟨q, hq, t, ht, hEq⟩ := dist2_achieved hP hL
  rw [hEq] at hd
  unfold sqDist at hd
  have hx1 : q.x - r ≤ t.x := by nlinarith [sq_nonneg (q.y - t.y), sq_nonneg (q.x - t.x - r)]
  have hx2 : t.x ≤ q.x + r := by nlinarith [sq_nonneg (q.y - t.y), sq_nonneg (q.x - t.x + r)]
  have hy1 : q.y - r ≤ t.y := by nlinarith [sq_nonneg (q.x - t.x), sq_nonneg (q.y - t.y - r)]
  have hy2 : t.y ≤ q.y + r := by nlinarith [sq_nonneg (q.x - t.x), sq_nonneg (q.y - t.y + r)]
  show lowX P - r ≤ highX L ∧ lowX L ≤ highX P + r ∧
    lowY P - r ≤ highY L ∧ lowY L ≤ highY P + r
  refine ⟨?_, ?_, ?_, ?_⟩
  · linarith [lowX_le hq, le_highX ht]
  · linarith [lowX_le ht, le_highX hq]
  · linarith [lowY_le hq, le_highY ht]
  · linarith [lowY_le ht, le_highY hq]

/-! ### Counting candidate rows per pair (C1) -/

theorem countPair_candRowsFor_zero_station {p : Params} {s s' : Station} {g : Segment}
    (hne : s'.sid ≠ s.sid) (l : List Segment) :
    (candRowsFor p s' l).countP
      (fun r => decide (r.station_id = s.sid ∧ r.segment_id = g.gid)) = 0 := by
  rw [List.countP_eq_zero]
  intro r hr
  obtain ⟨g', _, _, hr'⟩ := mem_candRowsFor hr
  subst hr'
  simp [mkCandRow, hne]

theorem countPair_candRowsFor_zero_gid {p : Params} {s : Station} {g : Segment}
    {l : List Segment} (hnotin : g.gid ∉ l.map Segment.gid) :
    (candRowsFor p s l).countP
      (fun r => decide (r.station_id = s.sid ∧ r.segment_id = g.gid)) = 0 := by
  rw [List.countP_eq_zero]
  intro r hr
  obtain ⟨g', hg', _, hr'⟩ := mem_candRowsFor hr
  subst hr'
  simp only [mkCandRow, decide_eq_true_eq]
  rintro ⟨-, hEq⟩
  exact hnotin (hEq ▸ List.mem_map_of_mem Segment.gid hg')

theorem countPair_candRowsFor {p : Params} {s : Station} {g : Segment}
    (hsv : validGeom s.geom = true) (hgv : validGeom g.geom = true) :
    ∀ {l : List Segment}, (l.map Segment.gid).Nodup → g ∈ l →
      (candRowsFor p s l).countP
        (fun r => decide (r.station_id = s.sid ∧ r.segment_id = g.gid)) =
      if withinRadius (dist2 (s.geom.getD []) (g.geom.getD [])) (radius_m p) then 1 else 0
  | [], _, hg => absurd hg (List.not_mem_nil g)
  | h :: t, hnd, hg => by
    rw [List.map_cons, List.nodup_cons] at hnd
    obtain ⟨hhead, htail⟩ := hnd
    unfold candRowsFor
    rcases List.mem_cons.1 hg with rfl | hgt
    · have htailzero : (candRowsFor p s t).countP
          (fun r => decide (r.station_id = s.sid ∧ r.segment_id = g.gid)) = 0 :=
        countPair_candRowsFor_zero_gid hhead
      by_cases hbox : boxesIntersect (queryEnvOf (s.geom.getD []) (radius_m p))
          (bboxOf (g.geom.getD []))
      · rw [if_pos hbox]
        by_cases hrad : withinRadius (dist2 (s.geom.getD []) (g.geom.getD [])) (radius_m p)
        · rw [if_pos hrad, if_pos hrad, List.countP_cons, htailzero]
          simp [mkCandRow]
        · rw [if_neg hrad, if_neg hrad, htailzero]
      · rw [if_neg hbox]
        have hradneg : ¬withinRadius (dist2 (s.geom.getD []) (g.geom.getD [])) (radius_m p) :=
          fun hrad => hbox (withinRadius_boxesIntersect (validGeom_getD_ne_nil hsv)
            (validGeom_getD_ne_nil hgv) hrad)
        rw [if_neg hradneg, htailzero]
    · have hne : h.gid ≠ g.gid :=
        fun hEq => hhead (hEq ▸ List.mem_map_of_mem Segment.gid hgt)
      have hrec := @countPair_candRowsFor p s g hsv hgv t htail hgt
      by_cases hbox : boxesIntersect (queryEnvOf (s.geom.getD []) (radius_m p))
          (bboxOf (h.geom.getD []))
      · rw [if_pos hbox]
        by_cases hrad : withinRadius (dist2 (s.geom.getD []) (h.geom.getD [])) (radius_m p)
        · rw [if_pos hrad, List.countP_cons, hrec]
          simp [mkCandRow, hne]
        · rw [if_neg hrad, hrec]
      · rw [if_neg hbox, hrec]

theorem countPair_genRows {p : Params} {segs : List Segment} {s : Station} {g : Segment} :
    ∀ {ss : List Station}, (ss.map Station.sid).Nodup → s ∈ ss →
      (genRows p segs ss).countP
        (fun r => decide (r.station_id = s.sid ∧ r.segment_id = g.gid)) =
      (candRowsFor p s segs).countP
        (fun r => decide (r.station_id = s.sid ∧ r.segment_id = g.gid))
  | [], _, hs => absurd hs (List.not_mem_nil s)
  | s' :: ss, hnd, hs => by
    rw [List.map_cons, List.nodup_cons] at hnd
    obtain ⟨hhead, htail⟩ := hnd
    unfold genRows
    rw [List.countP_append]
    rcases List.mem_cons.1 hs with rfl | hst
    · have hzero : (genRows p segs ss).countP
          (fun r => decide (r.station_id = s.sid ∧ r.segment_id = g.gid)) = 0 := by
        rw [List.countP_eq_zero]
        intro r hr
        obtain ⟨s'', hs'', hr'⟩ := mem_genRows hr
        obtain ⟨g', _, _, hr''⟩ := mem_candRowsFor hr'
        subst hr''
        have hne : s''.sid ≠ s.sid :=
          fun hEq => hhead (hEq ▸ List.mem_map_of_mem Station.sid hs'')
        simp [mkCandRow, hne]
      rw [hzero]
      omega
    · have hne : s'.sid ≠ s.sid :=
        fun hEq => hhead (hEq ▸ List.mem_map_of_mem Station.sid hst)
      rw [countPair_candRowsFor_zero_station hne, countPair_genRows htail hst]
      omega

/-- C1: for every station and segment with non-null, non-empty geometry
(ids unique within each input, as the data model requires), the generator
emits exactly one candidate row for the pair when the planar distance is at
most the radius and none when it exceeds it; and every emitted row's stored
distance is within the radius. -/
theorem candidate_row_iff_within_radius (p : Params) (stations : List Station)
    (segments : List Segment) (s : Station) (g : Segment)
    (hs : s ∈ stations) (hg : g ∈ segments)
    (hsv : validGeom s.geom = true) (hgv : validGeom g.geom = true)
    (hsid : (stations.map Station.sid).Nodup)
    (hgid : (segments.map Segment.gid).Nodup) :
    ((generate_candidates p stations segments).rows.countP
        (fun r => decide (r.station_id = s.sid ∧ r.segment_id = g.gid)) =
      if withinRadius (dist2 (s.geom.getD []) (g.geom.getD [])) (radius_m p) then 1 else 0) ∧
    ∀ r ∈ (generate_candidates p stations segments).rows,
      withinRadius r.distance_m2 (radius_m p) := by
  constructor
  · unfold generate_candidates
    have hsne : stations ≠ [] := List.ne_nil_of_mem hs
    have hgne : segments ≠ [] := List.ne_nil_of_mem hg
    rw [if_neg (by simp [hsne, hgne])]
    have hsf : s ∈ stations.filter fun s' => validGeom s'.geom :=
      List.mem_filter.2 ⟨hs, hsv⟩
    have hgf : g ∈ segments.filter fun g' => validGeom g'.geom :=
      List.mem_filter.2 ⟨hg, hgv⟩
    rw [if_neg (by simp [List.ne_nil_of_mem hsf, List.ne_nil_of_mem hgf])]
    have hsidf : (((stations.filter fun s' => validGeom s'.geom).map Station.sid)).Nodup :=
      hsid.sublist (List.Sublist.map Station.sid (List.filter_sublist stations))
    have hgidf : (((segments.filter fun g' => validGeom g'.geom).map Segment.gid)).Nodup :=
      hgid.sublist (List.Sublist.map Segment.gid (List.filter_sublist segments))
    show (genRows p (segments.filter fun g' => validGeom g'.geom)
        (stations.filter fun s' => validGeom s'.geom)).countP
        (fun r => decide (r.station_id = s.sid ∧ r.segment_id = g.gid)) = _
    rw [countPair_genRows hsidf hsf, countPair_candRowsFor hsv hgv hgidf hgf]
  · intro r hr
    obtain ⟨s', _, g', _, _, _, hw, hr'⟩ := mem_generate_candidates hr
    subst hr'
    exact hw

/-! ### The empty-input schema (C6) -/

/-- C6 counterexample: with an empty point set the generator returns the
four-column reduced schema, while the same segment with one station within
range produces the eight-column candidate schema — the empty-case column set
is not the schema of the non-empty case. -/
theorem empty_input_schema_counterexample :
    (generate_candidates {} []
        [{ gid := 2, geom := some [{ x := 0, y := 0 }], minElev := none,
           maxElev := none }]).columns ≠ fullCols {} ∧
    (generate_candidates {}
        [{ sid := 1, geom := some [{ x := 0, y := 0 }], elev := none }]
        [{ gid := 2, geom := some [{ x := 0, y := 0 }], minElev := none,
           maxElev := none }]).columns = fullCols {} := by
  constructor
  · decide
  · norm_num [generate_candidates, emptyCols, fullCols, validGeom, genRows, candRowsFor,
      boxesIntersect, queryEnvOf, bboxOf, lowX, highX, lowY, highY, dist2, ptDist2, sqDist,
      withinRadius, radius_m, MILES_TO_METERS]

/-- C6 (amended): on an empty point or line set — including emptiness left
after dropping null/empty geometries — the generator returns, without
failing, an empty table whose column set is the fixed four-column list
[point id, line id, "distance_m", "elev_pass"], a strict subset of the
non-empty candidate schema. -/
theorem empty_input_reduced_schema (p : Params) (stations : List Station)
    (segments : List Segment)
    (h : stations = [] ∨ segments = [] ∨
      (stations.filter fun s => validGeom s.geom) = [] ∨
      (segments.filter fun g => validGeom g.geom) = []) :
    generate_candidates p stations segments = { columns := emptyCols p, rows := [] } := by
  unfold generate_candidates
  rcases h with h | h | h | h
  · rw [if_pos (Or.inr h)]
  · rw [if_pos (Or.inl h)]
  · by_cases h0 : segments = [] ∨ stations = []
    · rw [if_pos h0]
    · rw [if_neg h0, if_pos (Or.inr h)]
  · by_cases h0 : segments = [] ∨ stations = []
    · rw [if_pos h0]
    · rw [if_neg h0, if_pos (Or.inl h)]

/-! ### Concrete instantiations of the theorems with hypotheses -/

/-- Station used by the C1 instantiation: id 1 at the origin, elevation 1500. -/
def c1st : Station := { sid := 1, geom := some [{ x := 0, y := 0 }], elev := some 1500 }

/-- Segment used by the C1 instantiation: id 2 from (300,0) to (400,0),
elevation band [1000, 2000]; planar distance to the station is 300 m. -/
def c1seg : Segment :=
  { gid := 2, geom := some [{ x := 300, y := 0 }, { x := 400, y := 0 }],
    minElev := some 1000, maxElev := some 2000 }

theorem candidate_row_iff_within_radius_witness :
    ((generate_candidates {} [c1st] [c1seg]).rows.countP
        (fun r => decide (r.station_id = c1st.sid ∧ r.segment_id = c1seg.gid)) = 1) ∧
    ∀ r ∈ (generate_candidates {} [c1st] [c1seg]).rows,
      withinRadius r.distance_m2 (radius_m {}) := by
  have h := candidate_row_iff_within_radius ({} : Params) [c1st] [c1seg] c1st c1seg
    (List.mem_singleton.2 rfl) (List.mem_singleton.2 rfl) rfl rfl
    (by simp) (by simp)
  refine ⟨?_, h.2⟩
  rw [h.1, if_pos ?_]
  constructor
  · norm_num [radius_m, MILES_TO_METERS]
  · norm_num [c1st, c1seg, dist2, ptDist2, sqDist, radius_m, MILES_TO_METERS, min_def]

/-- Candidate table used by the C3 instantiation: two rows in group 2. -/
def c3cand : CandTable :=
  { columns := fullCols {}
    rows :=
      [{ station_id := 1, segment_id := 2, distance_m2 := 100, distance_ft2 := 100,
         station_elev_ft := none, seg_min_elev_ft := none, seg_max_elev_ft := none,
         elev_pass := true },
       { station_id := 3, segment_id := 2, distance_m2 := 400, distance_ft2 := 400,
         station_elev_ft := none, seg_min_elev_ft := none, seg_max_elev_ft := none,
         elev_pass := true }] }

theorem top_n_per_group_bound_witness :
    1 ≤ ({} : Params).top_n ∧
    ((select_best_match c3cand {}).countP
        (fun b => decide (groupIdOf {} b.row = 2)) ≤ ({} : Params).top_n ∧
      ((c3cand.rows.countP fun c => decide (groupIdOf {} c = 2)) < ({} : Params).top_n →
        (select_best_match c3cand {}).countP (fun b => decide (groupIdOf {} b.row = 2)) =
          c3cand.rows.countP fun c => decide (groupIdOf {} c = 2))) :=
  ⟨Nat.le_refl 1, top_n_per_group_bound c3cand {} 2 (Nat.le_refl 1)⟩

theorem elev_pass_matches_spec_witness :
    (mkCandRow {} c1st c1seg (dist2 (c1st.geom.getD []) (c1seg.geom.getD []))).elev_pass =
      specElevPass ({} : Params).check_elevation ({} : Params).elev_tol_ft
        (mkCandRow {} c1st c1seg
          (dist2 (c1st.geom.getD []) (c1seg.geom.getD []))).station_elev_ft
        (mkCandRow {} c1st c1seg
          (dist2 (c1st.geom.getD []) (c1seg.geom.getD []))).seg_min_elev_ft
        (mkCandRow {} c1st c1seg
          (dist2 (c1st.geom.getD []) (c1seg.geom.getD []))).seg_max_elev_ft :=
  elev_pass_matches_spec {} [c1st] [c1seg] _ (by
    norm_num [generate_candidates, validGeom, genRows, candRowsFor, boxesIntersect,
      queryEnvOf, bboxOf, lowX, highX, lowY, highY, c1st, c1seg, dist2, ptDist2, sqDist,
      withinRadius, radius_m, MILES_TO_METERS, min_def])

/-- Candidate rows used by the C5 instantiation: distinct id pairs in one group. -/
def c5r1 : CandRow :=
  { station_id := 1, segment_id := 1, distance_m2 := 100, distance_ft2 := 100,
    station_elev_ft := none, seg_min_elev_ft := none, seg_max_elev_ft := none,
    elev_pass := true }

/-- Second candidate row for the C5 instantiation. -/
def c5r2 : CandRow :=
  { station_id := 2, segment_id := 1, distance_m2 := 25, distance_ft2 := 25,
    station_elev_ft := none, seg_min_elev_ft := none, seg_max_elev_ft := none,
    elev_pass := true }

theorem select_best_match_perm_invariant_witness :
    List.Perm [c5r1, c5r2] [c5r2, c5r1] ∧
    select_best_match { columns := fullCols {}, rows := [c5r1, c5r2] } {} =
      select_best_match { columns := fullCols {}, rows := [c5r2, c5r1] } {} := by
  refine ⟨List.Perm.swap c5r2 c5r1 [], ?_⟩
  apply select_best_match_perm_invariant
  · exact List.Perm.swap c5r2 c5r1 []
  · intro a ha b hb h1 h2
    simp only [List.mem_cons, List.not_mem_nil, or_false] at ha hb
    rcases ha with rfl | rfl <;> rcases hb with rfl | rfl <;>
      first
      | rfl
      | (exfalso; simp [c5r1, c5r2] at h1)

/-- Candidate row used by the C7 instantiation: full elevation data. -/
def c7row : CandRow :=
  { station_id := 1, segment_id := 2, distance_m2 := 100, distance_ft2 := 100,
    station_elev_ft := some 1500, seg_min_elev_ft := some 1000,
    seg_max_elev_ft := some 2000, elev_pass := true }

theorem elev_delta_matches_spec_witness :
    (addDelta [c7row]).map BestRow.row = [c7row] ∧
    ({ row := c7row, elev_delta_abs_ft := calc_delta c7row } : BestRow).elev_delta_abs_ft =
      specDelta ({ row := c7row, elev_delta_abs_ft := calc_delta c7row } : BestRow).row :=
  ⟨(elev_delta_matches_spec [c7row]).1,
   (elev_delta_matches_spec [c7row]).2 _ (by simp [addDelta])⟩

theorem elev_pass_tol_monotone_witness :
    (0 : ℚ) ≤ 250 ∧
    elevPass true 0 (some 1500) (some 1000) (some 2000) = true ∧
    elevPass true 250 (some 1500) (some 1000) (some 2000) = true :=
  ⟨by norm_num, by norm_num [elevPass],
   elev_pass_tol_monotone true 0 250 (some 1500) (some 1000) (some 2000)
     (by norm_num) (by norm_num [elevPass])⟩

/-- Candidate table used by the C10 instantiation. -/
def c10cand : CandTable :=
  { columns := fullCols {}
    rows :=
      [{ station_id := 1, segment_id := 2, distance_m2 := 100, distance_ft2 := 100,
         station_elev_ft := none, seg_min_elev_ft := none, seg_max_elev_ft := none,
         elev_pass := true }] }

theorem group_mode_not_validated_witness :
    ("Segment" : String) ≠ "segment" ∧
    (∀ r : CandRow, groupIdOf { ({} : Params) with group_by_col := "Segment" } r =
      r.station_id) ∧
    select_best_match c10cand { ({} : Params) with group_by_col := "Segment" } =
      select_best_match c10cand { ({} : Params) with group_by_col := "station" } := by
  have h := group_mode_not_validated c10cand {} "Segment" (by decide)
  exact ⟨by decide, h.1, h.2⟩

/-- Segment used by the C6 instantiation. -/
def c6seg : Segment :=
  { gid := 2, geom := some [{ x := 0, y := 0 }], minElev := none, maxElev := none }

theorem empty_input_reduced_schema_witness :
    (([] : List Station) = [] ∨ ([c6seg] : List Segment) = [] ∨
      (([] : List Station).filter fun s => validGeom s.geom) = [] ∨
      (([c6seg] : List Segment).filter fun g => validGeom g.geom) = []) ∧
    generate_candidates {} [] [c6seg] = { columns := emptyCols {}, rows := [] } :=
  ⟨Or.inl rfl, empty_input_reduced_schema {} [] [c6seg] (Or.inl rfl)⟩

end SegAssign
